import Mathlib

/-!
Verification development for the alpaca-cli repository (src/index.js).

The file shallowly embeds the command dispatch and validation layer of the
CLI: the minimist-style argument parser (an external collaborator, modelled
from the spec's §4.2 contract together with minimist's documented numeric
coercion), the joi-style validator (modelled after the `assertSchema`
wrapper in src/index.js with joi's documented `abortEarly: false`
collect-all behaviour), the command table, and the five command handlers.

JavaScript machine values that occur in parsed CLI records are modelled by
`JVal` (strings, numbers as rationals, booleans); the JavaScript notion of
truthiness and of `typeof x === 'string'` are made explicit.  Handlers are
embedded as functions producing either an error message (a thrown, later
caught, `Error`) or the ordered list of external effects (brokerage calls,
configuration writes, console output) they perform.
-/

namespace AlpacaCli

/-- JavaScript values occurring in parsed CLI records: strings, numbers
(modelled as rationals; the concrete scenarios only involve values that
JavaScript doubles represent exactly) and booleans. -/
inductive JVal where
  | str (s : String)
  | num (q : ℚ)
  | bool (b : Bool)
  deriving DecidableEq, Repr

/-- JavaScript truthiness of a `JVal`: empty string, zero and `false` are
falsy. -/
def JVal.truthy : JVal → Bool
  | .str s => !(s = "")
  | .num q => !(q = 0)
  | .bool b => b

/-- JavaScript truthiness of a possibly-undefined value (`undefined` is
falsy). -/
def jsFalsyO : Option JVal → Bool
  | none => true
  | some v => !v.truthy

/-- The test `typeof x === 'string'` on a possibly-undefined value. -/
def isStrO : Option JVal → Bool
  | some (.str _) => true
  | _ => false

/-- `Array.prototype.join(sep)` / joining violation lines with a newline. -/
def joinWith (sep : String) : List String → String
  | [] => ""
  | a :: rest =>
    match rest with
    | [] => a
    | _ :: _ => a ++ sep ++ joinWith sep rest

/-- Does `hay` begin with `needle` (character lists)? -/
def beginsWith : List Char → List Char → Bool
  | _, [] => true
  | [], _ :: _ => false
  | h :: t, n :: ns => h = n && beginsWith t ns

/-- Does `needle` occur contiguously inside `hay` (character lists)? -/
def hasSubAux (needle : List Char) : List Char → Bool
  | [] => beginsWith [] needle
  | h :: t => beginsWith (h :: t) needle || hasSubAux needle t

/-- Substring test on strings: `strHasSub hay needle` holds iff `needle`
occurs contiguously in `hay`. -/
def strHasSub (hay needle : String) : Bool :=
  hasSubAux needle.data hay.data

/-- `String.prototype.padStart(len, ' ')` as used by the report table. -/
def padStart (len : Nat) (s : String) : String :=
  String.mk (List.replicate (len - s.length) ' ') ++ s

/-- Decimal digit test. -/
def isDigitC (c : Char) : Bool := ('0' ≤ c) && (c ≤ '9')

/-- Hexadecimal digit test (both cases, as in minimist's hex pattern). -/
def isHexDigitC (c : Char) : Bool :=
  isDigitC c || (('a' ≤ c) && (c ≤ 'f')) || (('A' ≤ c) && (c ≤ 'F'))

/-- Numeric value of a decimal digit. -/
def digitVal (c : Char) : Nat := c.toNat - '0'.toNat

/-- Numeric value of a hexadecimal digit. -/
def hexDigitVal (c : Char) : Nat :=
  if isDigitC c then c.toNat - '0'.toNat
  else if ('a' ≤ c) && (c ≤ 'f') then c.toNat - 'a'.toNat + 10
  else c.toNat - 'A'.toNat + 10

/-- Value of a decimal digit list read most-significant first. -/
def natOfDigits (cs : List Char) : Nat :=
  cs.foldl (fun a c => a * 10 + digitVal c) 0

/-- Value of a hexadecimal digit list read most-significant first. -/
def natOfHexDigits (cs : List Char) : Nat :=
  cs.foldl (fun a c => a * 16 + hexDigitVal c) 0

/-- The optional exponent tail of minimist's decimal pattern:
the remaining characters must be empty or `e[+-]?digits`. -/
def expTailOk : List Char → Bool
  | [] => true
  | 'e' :: r =>
    let r2 := match r with
      | '-' :: t => t
      | '+' :: t => t
      | t => t
    !(r2 = []) && r2.all isDigitC
  | _ => false

/-- Core of minimist's decimal pattern after the optional sign:
`digits ('.' digits*)?` or `'.' digits+`, followed by the exponent tail. -/
def looksDecCore (cs : List Char) : Bool :=
  let p := cs.span isDigitC
  if p.1 = ([] : List Char) then
    match p.2 with
    | '.' :: r2 =>
      let q := r2.span isDigitC
      !(q.1 = ([] : List Char)) && expTailOk q.2
    | _ => false
  else
    match p.2 with
    | '.' :: r2 => expTailOk (r2.span isDigitC).2
    | r => expTailOk r

/-- minimist's hex pattern `/^0x[0-9a-f]+$/i`. -/
def looksHex (s : String) : Bool :=
  match s.data with
  | '0' :: x :: rest =>
    (x = 'x' || x = 'X') && !(rest = ([] : List Char)) && rest.all isHexDigitC
  | _ => false

/-- minimist's `isNumber` test on a raw token: the hex pattern or
`/^[-+]?(?:\d+(?:\.\d*)?|\.\d+)(e[-+]?\d+)?$/`. -/
def looksNumeric (s : String) : Bool :=
  looksHex s ||
    (let cs := match s.data with
      | '-' :: r => r
      | '+' :: r => r
      | r => r
    looksDecCore cs)

/-- Sign-split helper for numeric parsing: returns (negative?, rest). -/
def splitSign : List Char → Bool × List Char
  | '-' :: r => (true, r)
  | '+' :: r => (false, r)
  | r => (false, r)

/-- The rational `±n · 10^e / 10^f` built from integer data only (kernel
evaluation stays within `Int`/`Nat` arithmetic and `mkRat`). -/
def decRat (neg : Bool) (n : ℕ) (f : ℕ) (e : ℤ) : ℚ :=
  mkRat ((if neg then -(n : ℤ) else (n : ℤ)) * ((10 ^ e.toNat : ℕ) : ℤ))
    (10 ^ (f + (-e).toNat))

/-- The numeric value JavaScript's `Number` gives a token accepted by
`looksNumeric` (decimal with optional fraction and exponent, or hex). -/
def jsNumber (s : String) : ℚ :=
  if looksHex s then mkRat (natOfHexDigits (s.data.drop 2) : ℤ) 1
  else
    let sg := splitSign s.data
    let ip := sg.2.span isDigitC
    let fp := match ip.2 with
      | '.' :: t => t.span isDigitC
      | r => (([] : List Char), r)
    let e : ℤ := match fp.2 with
      | 'e' :: t =>
        let es := splitSign t
        let d := (natOfDigits (es.2.takeWhile isDigitC) : ℤ)
        if es.1 then -d else d
      | _ => 0
    decRat sg.1 (natOfDigits (ip.1 ++ fp.1)) fp.1.length e

/-- The exponent part recognised by JavaScript's `parseFloat`
(`[eE][+-]?digits`); `none` when the tail does not start with a valid
exponent, in which case `parseFloat` stops before it. -/
def parseFloatExp : List Char → Option ℤ
  | c :: r =>
    if c = 'e' || c = 'E' then
      let es := splitSign r
      let ds := es.2.takeWhile isDigitC
      if ds = ([] : List Char) then none
      else some (if es.1 then -(natOfDigits ds : ℤ) else (natOfDigits ds : ℤ))
    else none
  | [] => none

/-- JavaScript's `parseFloat` on a string: longest valid decimal prefix
after leading whitespace; `none` models `NaN`.  (The `Infinity` literal is
not modelled; it never arises in the scenarios considered.) -/
def parseFloatQ (s : String) : Option ℚ :=
  let cs := s.data.dropWhile (fun c => c = ' ' || c = '\t' || c = '\n' || c = '\r')
  let sg := splitSign cs
  let ip := sg.2.span isDigitC
  let fp := match ip.2 with
    | '.' :: t => t.span isDigitC
    | r => (([] : List Char), r)
  if ip.1 = ([] : List Char) ∧ fp.1 = ([] : List Char) then none
  else
    let e : ℤ := (parseFloatExp fp.2).getD 0
    some (decRat sg.1 (natOfDigits (ip.1 ++ fp.1)) fp.1.length e)

/-- String rendering of a number in template interpolation.  Exact for
integers (the only numeric values displayed in the modelled scenarios);
non-integers are rendered as a fraction, standing in for JavaScript's
shortest-round-trip float printing, which is not modelled. -/
def qToString (q : ℚ) : String :=
  if q.den = 1 then toString q.num
  else toString q.num ++ "/" ++ toString q.den

/-- JavaScript string conversion of a `JVal`, as used by template literals
and property-key lookup. -/
def JVal.display : JVal → String
  | .str s => s
  | .num q => qToString q
  | .bool b => if b then "true" else "false"

/-- Template interpolation of a possibly-undefined value. -/
def dispOpt : Option JVal → String
  | none => "undefined"
  | some v => v.display

/-- Declared type of a flag (minimist-options declaration). -/
inductive OptType where
  | str
  | num
  | bool
  deriving DecidableEq, Repr

/-- One flag declaration from a command's minimist-options block:
name, declared type, and optional default value. -/
structure OptionDecl where
  name : String
  optType : OptType
  dflt : Option JVal
  deriving DecidableEq, Repr

/-- A parsed invocation: the positional tokens (`argv._`, in input order)
and the named options in insertion order. -/
structure Parsed where
  positional : List JVal
  opts : List (String × JVal)
  deriving DecidableEq, Repr

/-- First-match association lookup (reading a property of the parsed
record). -/
def lookupOpt : List (String × JVal) → String → Option JVal
  | [], _ => none
  | (k2, v) :: rest, k => if k2 = k then some v else lookupOpt rest k

/-- Property read on a parsed invocation. -/
def Parsed.get (p : Parsed) (k : String) : Option JVal :=
  lookupOpt p.opts k

/-- Coercion minimist applies to a positional token: numeric-looking
tokens become numbers, everything else stays a string. -/
def coercePositional (t : String) : JVal :=
  if looksNumeric t then .num (jsNumber t) else .str t

/-- Declared type of a flag name, if declared. -/
def declType (decls : List OptionDecl) (name : String) : Option OptType :=
  (decls.find? (fun d => d.name = name)).map (fun d => d.optType)

/-- Coercion of a flag value: string-declared flags keep the raw text,
otherwise numeric-looking values become numbers (minimist's default). -/
def coerceFlagVal (decls : List OptionDecl) (name raw : String) : JVal :=
  match declType decls name with
  | some .str => .str raw
  | some .bool => .bool (!(raw = "false"))
  | _ => coercePositional raw

/-- Value stored for a flag that appears with no value token:
string-declared flags get the empty string, boolean and undeclared flags
get `true` (minimist's behaviour). -/
def flagNoValue (decls : List OptionDecl) (name : String) : JVal :=
  match declType decls name with
  | some .str => .str ""
  | _ => .bool true

/-- Split a flag body `name=value` at the first `=`; the value is
everything after it. -/
def splitNameVal : List Char → List Char × Option (List Char)
  | [] => ([], none)
  | '=' :: rest => ([], some rest)
  | c :: rest =>
    let p := splitNameVal rest
    (c :: p.1, p.2)

/-- Classification of one raw token: the `--` separator, a
`--name=value` flag, a bare `--name` flag, or a positional. -/
inductive TokKind where
  | ddash
  | flagEq (name : String) (raw : String)
  | flagBare (name : String)
  | pos
  deriving DecidableEq, Repr

/-- Classify a raw token. -/
def classify (t : String) : TokKind :=
  if t = "--" then .ddash
  else if beginsWith t.data ['-', '-'] then
    let nv := splitNameVal (t.data.drop 2)
    match nv.2 with
    | some raw => .flagEq (String.mk nv.1) (String.mk raw)
    | none => .flagBare (String.mk nv.1)
  else .pos

/-- Modelled from the spec (§4.2 Argument Parser, an external collaborator
whose code is not part of this repository): one left-to-right pass over
the raw tokens.  Tokens of the form `--name=value` or `--name value` are
recorded as options coerced to their declared type; a bare `--` sends the
remaining tokens to the positional list; every other token is a
positional, coerced by `coercePositional`.  Duplicate flags keep their
first occurrence under `lookupOpt` (the array-collecting behaviour of the
underlying library is not exercised by any modelled scenario). -/
def parseLoop (decls : List OptionDecl) : List String → List JVal × List (String × JVal)
  | [] => ([], [])
  | [t] =>
    match classify t with
    | .ddash => ([], [])
    | .flagEq name raw => ([], [(name, coerceFlagVal decls name raw)])
    | .flagBare name => ([], [(name, flagNoValue decls name)])
    | .pos => ([coercePositional t], [])
  | t :: v :: rest =>
    match classify t with
    | .ddash => ((v :: rest).map coercePositional, [])
    | .flagEq name raw =>
      let r := parseLoop decls (v :: rest)
      (r.1, (name, coerceFlagVal decls name raw) :: r.2)
    | .flagBare name =>
      if v.data.head? = some '-' ∨ declType decls name = some .bool then
        let r := parseLoop decls (v :: rest)
        (r.1, (name, flagNoValue decls name) :: r.2)
      else
        let r := parseLoop decls rest
        (r.1, (name, coerceFlagVal decls name v) :: r.2)
    | .pos =>
      let r := parseLoop decls (v :: rest)
      (coercePositional t :: r.1, r.2)

/-- Default application after parsing: each declared default whose flag
was not set is appended, in declaration order. -/
def applyDefaults : List OptionDecl → List (String × JVal) → List (String × JVal)
  | [], opts => opts
  | d :: rest, opts =>
    let opts2 :=
      match d.dflt with
      | some v => if (lookupOpt opts d.name).isSome then opts else opts ++ [(d.name, v)]
      | none => opts
    applyDefaults rest opts2

/-- Modelled from the spec (§4.2): full parse of an argument vector
against a command's option declarations — the token pass followed by
default application. -/
def parseArgs (tokens : List String) (decls : List OptionDecl) : Parsed :=
  let r := parseLoop decls tokens
  ⟨r.1, applyDefaults decls r.2⟩

/-- One joi rule of a command's validation schema, as written in
src/index.js: `joi.any().optional()`, `joi.only(...)` with or without
`.required()`, `joi.number().optional()`, `joi.string().optional()`. -/
inductive Rule where
  | anyOptional
  | onlyOf (allowed : List String) (required : Bool)
  | numberOptional
  | stringOptional
  deriving DecidableEq, Repr

/-- A validation schema: field name paired with its rule, in declaration
order. -/
abbrev Schema := List (String × Rule)

/-- The field value a rule sees: the positional array for `_`, otherwise
the named option. -/
def fieldVal (p : Parsed) (name : String) : Option JVal :=
  p.get name

/-- Check of a single rule against the parsed record, yielding the
violation message when the rule fails (message text modelled after joi's
phrasing; the claims depend only on one line per violated rule, each
naming its field). -/
def ruleViolation (p : Parsed) (nr : String × Rule) : Option String :=
  match nr.2 with
  | .anyOptional => none
  | .onlyOf allowed required =>
    match fieldVal p nr.1 with
    | none =>
      if required then some ("\"" ++ nr.1 ++ "\" is required") else none
    | some x =>
      if allowed.any (fun a => x = JVal.str a) then none
      else some ("\"" ++ nr.1 ++ "\" must be one of [" ++ joinWith ", " allowed ++ "]")
  | .numberOptional =>
    match fieldVal p nr.1 with
    | none => none
    | some (.num _) => none
    | some (.str s) =>
      if looksNumeric s then none else some ("\"" ++ nr.1 ++ "\" must be a number")
    | some (.bool _) => some ("\"" ++ nr.1 ++ "\" must be a number")
  | .stringOptional =>
    match fieldVal p nr.1 with
    | none => none
    | some (.str _) => none
    | some _ => some ("\"" ++ nr.1 ++ "\" must be a string")

/-- Unknown-key violations (joi's default `allowUnknown: false`): every
option key not named by the schema yields a line.  The positional key `_`
is always named by the schemas in src/index.js. -/
def unknownKeyViolations (p : Parsed) (sch : Schema) : List String :=
  (p.opts.map Prod.fst).filterMap (fun k =>
    if sch.any (fun nr => nr.1 = k) ∨ k = "_" then none
    else some ("\"" ++ k ++ "\" is not allowed"))

/-- All violations of a schema against a parsed record: every rule is
checked independently (joi's `abortEarly: false`), then unknown keys. -/
def violations (p : Parsed) (sch : Schema) : List String :=
  sch.filterMap (ruleViolation p) ++ unknownKeyViolations p sch

/-- `assertSchema` from src/index.js: validate with `abortEarly: false`;
on any violation throw an `Error` whose message joins every violation
message with a newline, else return the record unchanged. -/
def assertSchema (p : Parsed) (sch : Schema) : Except String Parsed :=
  let vs := violations p sch
  if vs.isEmpty then .ok p else .error (joinWith "\n" vs)

/-- The usage string `BUY_USAGE` from src/index.js. -/
def BUY_USAGE : String :=
  "alpaca buy [quantity] <symbol>\n  [--type=<market|limit|stop|stop_limit>]\n  [--time-in-force=<day|gtc|opg|ioc>]\n  [--limit-price=<number>]\n  [--stop-price=<number>]"

/-- The usage string `SELL_USAGE` from src/index.js. -/
def SELL_USAGE : String :=
  "alpaca sell [quantity] <symbol>\n  [--type=<market|limit|stop|stop_limit>]\n  [--time-in-force=<day|gtc|opg|ioc>]\n  [--limit-price=<number>]\n  [--stop-price=<number>]"

/-- The usage string `REPORT_USAGE` from src/index.js. -/
def REPORT_USAGE : String :=
  "alpaca report\n\nOutputs a report of your current portfolio"

/-- The usage string `CONFIGURE_USAGE` from src/index.js. -/
def CONFIGURE_USAGE : String :=
  "alpaca configure [--id=<key-id>] [--secret=<secret-key>] [--mode=<paper|live>]\n\nGet your api key at https://alpaca.markets.\n\n'paper' mode switches on paper trading. 'live' is the default, and uses real money."

/-- The top-level `HELP` text from src/index.js. -/
def HELP : String :=
  "Usage:\nalpaca <command>\n\ncommands:\n  configure   configure your alpaca cli installation\n  buy         buy a stock\n  sell        sell a stock\n  report      display a report of your current portfolio\n\nRun 'alpaca help <command>' for help with a specific command.\n"

/-- `HELP_DETAILS` from src/index.js: per-topic help text. -/
def HELP_DETAILS : List (String × String) :=
  [("configure", CONFIGURE_USAGE),
   ("buy", BUY_USAGE ++ "\n\nBuys a stock"),
   ("sell", SELL_USAGE ++ "\n\nSells a stock"),
   ("report", REPORT_USAGE),
   ("help", HELP)]

/-- First-match lookup in a string association list (object property
read on `HELP_DETAILS`). -/
def lookupStr : List (String × String) → String → Option String
  | [], _ => none
  | (k2, v) :: rest, k => if k2 = k then some v else lookupStr rest k

/-- `orderOptions` from src/index.js: the minimist-options block shared by
buy and sell. -/
def orderOptions : List OptionDecl :=
  [⟨"type", .str, some (.str "market")⟩,
   ⟨"time-in-force", .str, some (.str "gtc")⟩,
   ⟨"limit-price", .num, none⟩,
   ⟨"stop-price", .num, none⟩,
   ⟨"client-order-id", .str, none⟩]

/-- `orderSchema` from src/index.js. -/
def orderSchema : Schema :=
  [("_", .anyOptional),
   ("type", .onlyOf ["market", "limit", "stop", "stop_limit"] true),
   ("time-in-force", .onlyOf ["day", "gtc", "opg", "ioc"] true),
   ("limit-price", .numberOptional),
   ("stop-price", .numberOptional),
   ("client-order-id", .stringOptional)]

/-- The configure command's minimist-options block from src/index.js. -/
def configureOptions : List OptionDecl :=
  [⟨"id", .str, none⟩,
   ⟨"secret", .str, none⟩,
   ⟨"mode", .str, none⟩,
   ⟨"base-url", .str, none⟩]

/-- The configure command's joi schema from src/index.js. -/
def configureSchema : Schema :=
  [("_", .anyOptional),
   ("id", .stringOptional),
   ("secret", .stringOptional),
   ("mode", .onlyOf ["paper", "live"] false),
   ("base-url", .stringOptional)]

/-- The persistent configuration store, restricted to the four keys the
program ever reads or writes (`keyId`, `secretKey`, `mode`, `baseUrl`);
an absent key reads as `undefined`. -/
structure Config where
  keyId : Option JVal
  secretKey : Option JVal
  mode : Option JVal
  baseUrl : Option JVal
  deriving DecidableEq, Repr

/-- `config.set(key, value)` on the store, for the keys the program
writes; other keys are outside the modelled state. -/
def Config.set (c : Config) (k : String) (v : JVal) : Config :=
  if k = "keyId" then { c with keyId := some v }
  else if k = "secretKey" then { c with secretKey := some v }
  else if k = "mode" then { c with mode := some v }
  else if k = "baseUrl" then { c with baseUrl := some v }
  else c

/-- The credential check in `getAlpaca`: `!keyId || !secretKey`. -/
def credsMissing (c : Config) : Bool :=
  jsFalsyO c.keyId || jsFalsyO c.secretKey

/-- The error message `getAlpaca` throws when credentials are missing. -/
def NO_CONFIG_MSG : String :=
  "No alpaca configuration found.\nSee 'alpaca help configure' for more information."

/-- `getAlpaca` from src/index.js: throws when `keyId` or `secretKey` is
falsy, otherwise yields the brokerage client (whose construction
parameters play no further role in the modelled behaviour). -/
def getAlpaca (c : Config) : Except String Unit :=
  if credsMissing c then .error NO_CONFIG_MSG else .ok ()

/-- The parameter record passed to `alpaca.createOrder`. -/
structure OrderReq where
  symbol : JVal
  qty : JVal
  side : String
  otype : Option JVal
  time_in_force : Option JVal
  limit_price : Option JVal
  stop_price : Option JVal
  client_order_id : Option JVal
  deriving DecidableEq, Repr

/-- A position record as returned by `alpaca.getPositions` (the brokerage
API returns these fields as strings). -/
structure Position where
  symbol : String
  qty : String
  cost_basis : String
  market_value : String
  unrealized_pl : String
  deriving DecidableEq, Repr

/-- An external effect of a command run: a brokerage call, a
configuration write, or console output.  `printOut` is `console.log` of
a string; `printObj name` is `console.log` of the non-string value found
under `name` on an object's prototype chain (its console rendering is
not modelled, only which value is printed). -/
inductive Effect where
  | createOrder (req : OrderReq)
  | getBars (timeframe : String) (symbol : JVal) (limit : Nat)
  | getPositions
  | configSet (key : String) (value : JVal)
  | printOut (s : String)
  | printObj (name : String)
  deriving DecidableEq, Repr

/-- The responses of the external brokerage service for one run. -/
structure Broker where
  orderId : String
  barClose : ℚ
  positions : List Position
  deriving Repr

/-- Replay the configuration writes of an effect list onto the store. -/
def applyEffects (c : Config) : List Effect → Config
  | [] => c
  | .configSet k v :: rest => applyEffects (c.set k v) rest
  | _ :: rest => applyEffects c rest

/-- The positional-resolution logic at the top of the `order` handler in
src/index.js: `let [qty, symbol] = _` followed by the
one-token/usage-error disambiguation. -/
def resolvePositional (usage : String) (ps : List JVal) : Except String (JVal × JVal) :=
  let qty := ps.head?
  let symbol := ps[1]?
  if jsFalsyO symbol && isStrO qty then
    .ok (JVal.num 1, qty.getD (JVal.str ""))
  else if jsFalsyO qty || jsFalsyO symbol then
    .error ("Usage: " ++ usage)
  else
    .ok (qty.getD (JVal.str ""), symbol.getD (JVal.str ""))

/-- Resolution applied to raw positional tokens, after minimist's
positional coercion. -/
def resolveRaw (usage : String) (raws : List String) : Except String (JVal × JVal) :=
  resolvePositional usage (raws.map coercePositional)

/-- Whitespace characters trimmed by JavaScript's `ToNumber` on string
operands. -/
def jsWs (c : Char) : Bool :=
  c = ' ' || c = '\t' || c = '\n' || c = '\r'

/-- JavaScript's `qty > 1` comparison (string operands go through number
conversion with whitespace trimmed at both ends; a non-numeric string
compares as NaN, hence false). -/
def jsGtOne : JVal → Bool
  | .num q => (q.den : ℤ) < q.num
  | .str s =>
    let t := (((s.data.dropWhile jsWs).reverse.dropWhile jsWs).reverse : List Char)
    if t = ([] : List Char) then false
    else if looksNumeric (String.mk t) then
      ((jsNumber (String.mk t)).den : ℤ) < (jsNumber (String.mk t)).num
    else false
  | .bool _ => false

/-- The `order(side, usage)` handler from src/index.js: credential check,
positional resolution, order submission, optional market-price lookup,
confirmation print. -/
def orderHandler (side usage : String) (p : Parsed) (cfg : Config) (b : Broker) :
    Except String (List Effect) :=
  match getAlpaca cfg with
  | .error e => .error e
  | .ok _ =>
    match resolvePositional usage p.positional with
    | .error e => .error e
    | .ok qs =>
      let qty := qs.1
      let symbol := qs.2
      let otype := p.get "type"
      let tif := p.get "time-in-force"
      let lp := p.get "limit-price"
      let sp := p.get "stop-price"
      let coid := p.get "client-order-id"
      let req : OrderReq := ⟨symbol, qty, side, otype, tif, lp, sp, coid⟩
      let isStopLimit := otype = some (JVal.str "stop_limit")
      let isLimit := otype = some (JVal.str "limit")
      let isStop := otype = some (JVal.str "stop")
      let priceText :=
        if isStopLimit then "between $" ++ dispOpt sp ++ " and $" ++ dispOpt lp
        else if isLimit then "at $" ++ dispOpt lp
        else if isStop then "at $" ++ dispOpt sp
        else "at $" ++ qToString b.barClose
      let marketLookup : List Effect :=
        if isStopLimit ∨ isLimit ∨ isStop then [] else [.getBars "minute" symbol 1]
      let confirmation :=
        "Placed a " ++ dispOpt otype ++ " order to " ++ side ++ " " ++ qty.display
          ++ " share" ++ (if jsGtOne qty then "s" else "") ++ " of " ++ symbol.display
          ++ " " ++ priceText ++ ".\n\n  order id:  " ++ b.orderId
      .ok ([.createOrder req] ++ marketLookup ++ [.printOut confirmation])

/-- Rounding of `num / den` (with `den > 0`) to the nearest integer, half
away from zero. -/
def roundDiv (num : ℤ) (den : ℕ) : ℤ :=
  let q := (2 * num.natAbs + den) / (2 * den)
  if num < 0 then -(q : ℤ) else q

/-- Currency formatting rounded to cents, half away from zero (the
default rounding of `Intl` currency formatting). -/
def centsOf (q : ℚ) : ℤ :=
  roundDiv (q.num * 100) q.den

/-- Split a digit string into groups of three from the right. -/
def chunk3 : List Char → List (List Char)
  | [] => []
  | [a] => [[a]]
  | [a, b] => [[a, b]]
  | a :: b :: c :: rest => [a, b, c] :: chunk3 rest

/-- Thousands grouping of a digit string ("1000" becomes "1,000"). -/
def groupDigits (s : String) : String :=
  String.mk ((chunk3 s.data.reverse).intersperse [','] |>.flatten).reverse

/-- Two-digit cents rendering. -/
def twoDigits (n : Nat) : String :=
  (if n < 10 then "0" else "") ++ toString n

/-- The `usd` formatter of the report handler:
`parseFloat(x).toLocaleString(undefined, {style:'currency', currency:'USD'})`.
`none` (NaN) renders as "NaN", as `toLocaleString` does. -/
def usd (x : Option ℚ) : String :=
  match x with
  | none => "NaN"
  | some q =>
    let c := centsOf q
    let a := c.natAbs
    (if c < 0 then "-" else "") ++ "$" ++ groupDigits (toString (a / 100)) ++ "." ++ twoDigits (a % 100)

/-- Rational addition expressed through `mkRat` (value-equal to `+` on
`ℚ`, stated in a kernel-evaluable form). -/
def qAdd (a b : ℚ) : ℚ :=
  mkRat (a.num * (b.den : ℤ) + b.num * (a.den : ℤ)) (a.den * b.den)

/-- NaN-propagating addition on JavaScript numbers. -/
def jsAdd : Option ℚ → Option ℚ → Option ℚ
  | some a, some b => some (qAdd a b)
  | _, _ => none

/-- `performance > 0` with NaN comparing false. -/
def jsGtZero : Option ℚ → Bool
  | none => false
  | some q => 0 < q.num

/-- One table line of the report: symbol, qty, cost basis, market value,
unrealized profit/loss, each right-padded as in src/index.js. -/
def positionRow (pos : Position) : String :=
  padStart 8 pos.symbol ++ padStart 8 pos.qty ++ padStart 10 (usd (parseFloatQ pos.cost_basis))
    ++ padStart 10 (usd (parseFloatQ pos.market_value))
    ++ padStart 12 (usd (parseFloatQ pos.unrealized_pl))

/-- The aggregate unrealized profit/loss of the report handler:
`positions.reduce((total, pos) => total + parseFloat(pos.unrealized_pl), 0)`. -/
def performanceOf (positions : List Position) : Option ℚ :=
  positions.foldl (fun t pos => jsAdd t (parseFloatQ pos.unrealized_pl)) (some 0)

/-- The `report` handler from src/index.js: credential check, position
fetch, table and signed-total rendering. -/
def reportHandler (cfg : Config) (b : Broker) : Except String (List Effect) :=
  match getAlpaca cfg with
  | .error e => .error e
  | .ok _ =>
    let positions := b.positions
    let rows := positions.map positionRow
    let performance := performanceOf positions
    let perfSign := if jsGtZero performance then "+" else ""
    let out :=
      "\nPortfolio:\n  symbol     qty      cost     value      profit\n"
        ++ joinWith "\n" rows
        ++ "\n\nPerformance:\n  " ++ perfSign ++ usd performance ++ "\n  "
    .ok [.getPositions, .printOut out]

/-- The configuration writes the `configure` handler performs: one
`config.set` per truthy flag, in source order. -/
def configureSets (p : Parsed) : List Effect :=
  (if (jsFalsyO (p.get "id")) = false then [.configSet "keyId" ((p.get "id").getD (JVal.str ""))] else [])
  ++ (if (jsFalsyO (p.get "secret")) = false then [.configSet "secretKey" ((p.get "secret").getD (JVal.str ""))] else [])
  ++ (if (jsFalsyO (p.get "mode")) = false then [.configSet "mode" ((p.get "mode").getD (JVal.str ""))] else [])
  ++ (if (jsFalsyO (p.get "base-url")) = false then [.configSet "baseUrl" ((p.get "base-url").getD (JVal.str ""))] else [])

/-- The `configure` handler from src/index.js: conditional writes
followed by the `configured ...` summary print. -/
def configureHandler (p : Parsed) : Except String (List Effect) :=
  .ok (configureSets p
    ++ [.printOut ("configured " ++ joinWith ", " (p.opts.map Prod.fst))])

/-- The configuration store after one run of the configure handler. -/
def configureApply (p : Parsed) (c : Config) : Config :=
  applyEffects c (configureSets p)

/-- The property names every plain JavaScript object literal inherits
from `Object.prototype`.  Indexing an object literal with one of these
names yields the inherited value (a function, or `Object.prototype`
itself for the last entry), and every one of these values is truthy. -/
def OBJECT_PROTOTYPE_KEYS : List String :=
  ["constructor", "hasOwnProperty", "isPrototypeOf", "propertyIsEnumerable",
   "toLocaleString", "toString", "valueOf",
   "__defineGetter__", "__defineSetter__", "__lookupGetter__", "__lookupSetter__",
   "__proto__"]

/-- The `help` handler from src/index.js: full command list, per-topic
text, or an unknown-command error.  `HELP_DETAILS[command]` is a
JavaScript property read, so a name inherited from `Object.prototype`
yields a truthy value and is printed (`console.log` of a non-string). -/
def helpHandler (p : Parsed) : Except String (List Effect) :=
  match p.positional.head? with
  | some cmd =>
    if cmd.truthy then
      match lookupStr HELP_DETAILS cmd.display with
      | some text => .ok [.printOut text]
      | none =>
        if cmd.display ∈ OBJECT_PROTOTYPE_KEYS then .ok [.printObj cmd.display]
        else .error ("'" ++ cmd.display ++ "' is not an alpaca command. See 'alpaca help'")
    else .ok [.printOut HELP]
  | none => .ok [.printOut HELP]

/-- Tag for a command's handler function. -/
inductive Handler where
  | configureH
  | buyH
  | sellH
  | reportH
  | helpH
  deriving DecidableEq, Repr

/-- A command's entry in the `cli` table: option declarations, optional
validation schema, handler. -/
structure CommandSpec where
  options : List OptionDecl
  schema : Option Schema
  handler : Handler
  deriving DecidableEq, Repr

/-- The `cli.configure` entry. -/
def configureSpec : CommandSpec := ⟨configureOptions, some configureSchema, .configureH⟩

/-- The `cli.buy` entry. -/
def buySpec : CommandSpec := ⟨orderOptions, some orderSchema, .buyH⟩

/-- The `cli.sell` entry. -/
def sellSpec : CommandSpec := ⟨orderOptions, some orderSchema, .sellH⟩

/-- The `cli.report` entry: no validation schema. -/
def reportSpec : CommandSpec := ⟨[], none, .reportH⟩

/-- The `cli.help` entry: no validation schema. -/
def helpSpec : CommandSpec := ⟨[], none, .helpH⟩

/-- What `cli[command]` can produce: one of the five command specs, or a
truthy value inherited from `Object.prototype` (for names such as
`toString`), which the `|| cli.help` fallback does not replace. -/
inductive LookupResult where
  | spec (s : CommandSpec)
  | inherited (name : String)
  deriving DecidableEq, Repr

/-- `cli[command] || cli.help`: JavaScript property lookup on the `cli`
object literal.  An own key yields its command spec; a name inherited
from `Object.prototype` yields the (truthy) inherited value, so the
help fallback is not taken; everything else is `undefined` and falls
back to help.  `cli[undefined]` reads the key "undefined", which is
neither own nor inherited, so a missing command also falls back to
help. -/
def cliLookup (command : Option String) : LookupResult :=
  match command with
  | none => .spec helpSpec
  | some s =>
    if s = "configure" then .spec configureSpec
    else if s = "buy" then .spec buySpec
    else if s = "sell" then .spec sellSpec
    else if s = "report" then .spec reportSpec
    else if s = "help" then .spec helpSpec
    else if s ∈ OBJECT_PROTOTYPE_KEYS then .inherited s
    else .spec helpSpec

/-- Dispatch of a handler tag to its embedded handler. -/
def runHandler : Handler → Parsed → Config → Broker → Except String (List Effect)
  | .configureH, p, _, _ => configureHandler p
  | .buyH, p, c, b => orderHandler "buy" BUY_USAGE p c b
  | .sellH, p, c, b => orderHandler "sell" SELL_USAGE p c b
  | .reportH, _, c, b => reportHandler c b
  | .helpH, p, _, _ => helpHandler p

/-- The validation step of the main IIFE:
`if (action.schema) assertSchema(parsedArgs, action.schema)`. -/
def dispatchValidate (spec : CommandSpec) (p : Parsed) : Except String Parsed :=
  match spec.schema with
  | some sch => assertSchema p sch
  | none => .ok p

/-- The outcome of one CLI run: the external effects performed and the
error message printed by the top-level catch, if any. -/
structure RunOutcome where
  effects : List Effect
  printedError : Option String
  deriving DecidableEq, Repr

/-- The main IIFE of src/index.js on `process.argv.slice(2)`: command
lookup (with its help fallback), parse, optional validation, handler
run, with every thrown error caught at the top level.  When the lookup
lands on a value inherited from `Object.prototype`, its `options` and
`schema` are `undefined` (parse and validation are effect-free) and the
call `action.fn(parsedArgs)` throws the TypeError
"action.fn is not a function", which the top-level catch prints. -/
def runMain (argvRest : List String) (cfg : Config) (b : Broker) : RunOutcome :=
  match cliLookup argvRest.head? with
  | .inherited _ => ⟨[], some "action.fn is not a function"⟩
  | .spec spec =>
    let p := parseArgs argvRest.tail spec.options
    match dispatchValidate spec p with
    | .error m => ⟨[], some m⟩
    | .ok p2 =>
      match runHandler spec.handler p2 cfg b with
      | .error m => ⟨[], some m⟩
      | .ok effs => ⟨effs, none⟩

/-! ### Helper lemmas -/

theorem beginsWith_nil (hay : List Char) : beginsWith hay [] = true := by
  cases hay <;> rfl

theorem beginsWith_append_self (n r : List Char) : beginsWith (n ++ r) n = true := by
  induction n with
  | nil => exact beginsWith_nil r
  | cons c t ih => simp [beginsWith, ih]

theorem hasSubAux_of_begins (n hay : List Char) (h : beginsWith hay n = true) :
    hasSubAux n hay = true := by
  cases hay with
  | nil => simpa [hasSubAux] using h
  | cons c t => simp [hasSubAux, h]

theorem hasSubAux_tail (n : List Char) (c : Char) (t : List Char)
    (h : hasSubAux n t = true) : hasSubAux n (c :: t) = true := by
  simp [hasSubAux, h]

theorem hasSubAux_append_left (n pre hay : List Char) (h : hasSubAux n hay = true) :
    hasSubAux n (pre ++ hay) = true := by
  induction pre with
  | nil => simpa using h
  | cons c t ih => simpa using hasSubAux_tail n c (t ++ hay) ih

theorem strHasSub_joinWith (sep : String) (vs : List String) (v : String)
    (h : v ∈ vs) : strHasSub (joinWith sep vs) v = true := by
  induction vs with
  | nil => cases h
  | cons a rest ih =>
    rcases List.mem_cons.mp h with hva | hvr
    · subst hva
      cases rest with
      | nil =>
        have := beginsWith_append_self v.data []
        simpa [strHasSub, joinWith] using hasSubAux_of_begins v.data v.data (by simpa using this)
      | cons b t =>
        have hb : beginsWith (v.data ++ (sep.data ++ (joinWith sep (b :: t)).data)) v.data = true :=
          beginsWith_append_self _ _
        have : hasSubAux v.data ((v ++ sep ++ joinWith sep (b :: t)).data) = true := by
          have := hasSubAux_of_begins v.data (v.data ++ (sep.data ++ (joinWith sep (b :: t)).data)) hb
          simpa [String.data_append, List.append_assoc] using this
        simpa [strHasSub, joinWith] using this
    · cases rest with
      | nil => cases hvr
      | cons b t =>
        have hrest : hasSubAux v.data ((joinWith sep (b :: t)).data) = true := by
          simpa [strHasSub] using ih hvr
        have : hasSubAux v.data ((a.data ++ sep.data) ++ (joinWith sep (b :: t)).data) = true :=
          hasSubAux_append_left _ _ _ hrest
        simpa [strHasSub, joinWith, String.data_append, List.append_assoc] using this

theorem lookupOpt_append_of_none (l m : List (String × JVal)) (k : String)
    (h : lookupOpt l k = none) : lookupOpt (l ++ m) k = lookupOpt m k := by
  induction l with
  | nil => rfl
  | cons kv rest ih =>
    by_cases hk : kv.1 = k
    · simp [lookupOpt, hk] at h
    · simp only [lookupOpt, hk, if_false, List.cons_append] at h ⊢
      simpa [lookupOpt, hk] using ih h

theorem lookupOpt_append_of_some (l m : List (String × JVal)) (k : String) (v : JVal)
    (h : lookupOpt l k = some v) : lookupOpt (l ++ m) k = some v := by
  induction l with
  | nil => cases h
  | cons kv rest ih =>
    by_cases hk : kv.1 = k
    · simp only [lookupOpt, hk, if_pos] at h ⊢
      · exact h
    · simp only [lookupOpt, hk, if_false, List.cons_append] at h ⊢
      simpa [lookupOpt, hk] using ih h

theorem applyDefaults_preserve (decls : List OptionDecl) (os : List (String × JVal))
    (k : String) (v : JVal) (h : lookupOpt os k = some v) :
    lookupOpt (applyDefaults decls os) k = some v := by
  induction decls generalizing os with
  | nil => simpa [applyDefaults] using h
  | cons d rest ih =>
    simp only [applyDefaults]
    cases hd : d.dflt with
    | none => exact ih os h
    | some w =>
      by_cases hs : (lookupOpt os d.name).isSome
      · simp only [hs, if_true]
        exact ih os h
      · simp only [hs, if_false]
        exact ih _ (lookupOpt_append_of_some os [(d.name, w)] k v h)

theorem applyDefaults_hit (decls : List OptionDecl) (d : OptionDecl) (v : JVal)
    (hnd : (decls.map OptionDecl.name).Nodup) (hmem : d ∈ decls) (hdf : d.dflt = some v) :
    ∀ os : List (String × JVal), lookupOpt os d.name = none →
      lookupOpt (applyDefaults decls os) d.name = some v := by
  induction decls with
  | nil => cases hmem
  | cons d0 rest ih =>
    intro os habs
    have hnd0 : d0.name ∉ rest.map OptionDecl.name := (List.nodup_cons.mp hnd).1
    have hndr : (rest.map OptionDecl.name).Nodup := (List.nodup_cons.mp hnd).2
    rcases List.mem_cons.mp hmem with hd0 | hdr
    · subst hd0
      simp only [applyDefaults, hdf, habs, Option.isSome_none, Bool.false_eq_true, if_false]
      refine applyDefaults_preserve rest _ d.name v ?_
      rw [lookupOpt_append_of_none os [(d.name, v)] d.name habs]
      simp [lookupOpt]
    · have hne : d0.name ≠ d.name := by
        intro he
        exact hnd0 (he ▸ List.mem_map_of_mem OptionDecl.name hdr)
      simp only [applyDefaults]
      cases hd0d : d0.dflt with
      | none => exact ih hndr hdr os habs
      | some w =>
        by_cases hs : (lookupOpt os d0.name).isSome
        · simp only [hs, if_true]
          exact ih hndr hdr os habs
        · have hsf : (lookupOpt os d0.name).isSome = false := by
            cases hx : (lookupOpt os d0.name).isSome
            · rfl
            · exact absurd hx hs
          simp only [hsf, Bool.false_eq_true, if_false]
          refine ih hndr hdr _ ?_
          rw [lookupOpt_append_of_none os [(d0.name, w)] d.name habs]
          simp [lookupOpt, hne]

theorem classify_pos_of_nodash (t : String) (ht : t.data.head? ≠ some '-') :
    classify t = .pos := by
  have hne : ¬ t = "--" := by
    intro he
    subst he
    exact ht rfl
  have hbw : beginsWith t.data ['-', '-'] = false := by
    cases hd : t.data with
    | nil => rfl
    | cons c cs =>
      have hc : ¬ c = '-' := by
        intro he
        exact ht (by simp [hd, he])
      simp [beginsWith, hc]
  simp [classify, hne, hbw]

theorem jsFalsyO_some (v : JVal) : jsFalsyO (some v) = !v.truthy := rfl

theorem parseLoop_noflags (decls : List OptionDecl) (ts : List String)
    (h : ∀ t ∈ ts, t.data.head? ≠ some '-') :
    parseLoop decls ts = (ts.map coercePositional, []) := by
  induction ts with
  | nil => rfl
  | cons t rest ih =>
    have ht : classify t = .pos :=
      classify_pos_of_nodash t (h t (List.mem_cons_self t rest))
    have hrest := ih (fun u hu => h u (List.mem_cons_of_mem t hu))
    cases rest with
    | nil => simp [parseLoop, ht]
    | cons v rest2 =>
      simp [parseLoop, ht, hrest]

end AlpacaCli

deriving instance DecidableEq for Except

namespace AlpacaCli

/-! ### Claim theorems -/

set_option maxRecDepth 16384 in
/-- C1 counterexample: with the two positional tokens `0 AAPL` both
present, the order handler raises a usage error instead of resolving
qty = 0, symbol = "AAPL" — the claim's two-token rule does not hold for a
falsy first token (the `!qty` check in src/index.js rejects it). -/
theorem C1_counterexample :
    resolveRaw BUY_USAGE ["0", "AAPL"] = .error ("Usage: " ++ BUY_USAGE)
    ∧ resolveRaw BUY_USAGE ["0", "AAPL"] ≠ .ok (JVal.num 0, JVal.str "AAPL") := by
  constructor
  · decide
  · decide

/-- C1 amended: resolving (qty, symbol) from the positional tokens of the
buy and sell handlers follows the decision table with a truthiness
proviso: exactly one non-numeric-looking token gives symbol = that token
and qty = 1; one numeric-looking token, or no tokens, raises a usage
error containing the usage string; with two or more tokens, if the second
is truthy then the first is qty and the second is symbol provided the
first is truthy, else a usage error is raised; if the second is falsy the
one-token rules apply to the first token. -/
theorem C1_positionalResolution (usage : String) :
    (∀ s : String, looksNumeric s = false →
      resolveRaw usage [s] = .ok (JVal.num 1, JVal.str s))
    ∧ (∀ s : String, looksNumeric s = true →
      resolveRaw usage [s] = .error ("Usage: " ++ usage))
    ∧ resolveRaw usage [] = .error ("Usage: " ++ usage)
    ∧ (∀ (a b : String) (rest : List String),
        (coercePositional a).truthy = true → (coercePositional b).truthy = true →
        resolveRaw usage (a :: b :: rest) = .ok (coercePositional a, coercePositional b))
    ∧ (∀ (a b : String) (rest : List String),
        (coercePositional a).truthy = false → (coercePositional b).truthy = true →
        resolveRaw usage (a :: b :: rest) = .error ("Usage: " ++ usage))
    ∧ (∀ (a b : String) (rest : List String),
        (coercePositional b).truthy = false → looksNumeric a = false →
        resolveRaw usage (a :: b :: rest) = .ok (JVal.num 1, JVal.str a))
    ∧ (∀ (a b : String) (rest : List String),
        (coercePositional b).truthy = false → looksNumeric a = true →
        resolveRaw usage (a :: b :: rest) = .error ("Usage: " ++ usage)) := by
  refine ⟨?_, ?_, ?_, ?_, ?_, ?_, ?_⟩
  · intro s h
    simp [resolveRaw, resolvePositional, coercePositional, h, jsFalsyO, isStrO]
  · intro s h
    simp [resolveRaw, resolvePositional, coercePositional, h, jsFalsyO, isStrO, JVal.truthy]
  · rfl
  · intro a b rest h1 h2
    simp [resolveRaw, resolvePositional, jsFalsyO_some, h1, h2, jsFalsyO]
  · intro a b rest h1 h2
    simp [resolveRaw, resolvePositional, jsFalsyO_some, h1, h2, jsFalsyO, isStrO]
  · intro a b rest h1 h2
    have hca : coercePositional a = JVal.str a := by simp [coercePositional, h2]
    simp [resolveRaw, resolvePositional, jsFalsyO_some, h1, hca, jsFalsyO, isStrO]
  · intro a b rest h1 h2
    have hca : coercePositional a = JVal.num (jsNumber a) := by simp [coercePositional, h2]
    simp [resolveRaw, resolvePositional, jsFalsyO_some, h1, hca, jsFalsyO, isStrO]

set_option maxRecDepth 16384 in
/-- Witness for C1: the amended decision table evaluated at the spec's
four example invocations. -/
theorem C1_positionalResolution_witness :
    resolveRaw BUY_USAGE ["AAPL"] = .ok (JVal.num 1, JVal.str "AAPL")
    ∧ resolveRaw BUY_USAGE ["5", "AAPL"] = .ok (JVal.num 5, JVal.str "AAPL")
    ∧ resolveRaw BUY_USAGE [] = .error ("Usage: " ++ BUY_USAGE)
    ∧ resolveRaw BUY_USAGE ["5"] = .error ("Usage: " ++ BUY_USAGE) := by
  refine ⟨(C1_positionalResolution BUY_USAGE).1 "AAPL" (by decide), ?_,
    (C1_positionalResolution BUY_USAGE).2.2.1,
    (C1_positionalResolution BUY_USAGE).2.1 "5" (by decide)⟩
  have h := (C1_positionalResolution BUY_USAGE).2.2.2.1 "5" "AAPL" [] (by decide) (by decide)
  rw [show coercePositional "5" = JVal.num 5 from by decide,
    show coercePositional "AAPL" = JVal.str "AAPL" from by decide] at h
  exact h

set_option maxRecDepth 16384 in
/-- C2: the validator checks every rule independently and the raised
error joins one line per violated rule; any violated rule's message
occurs in the aggregated message, and the order invocation
`1 AAPL --type=bogus --time-in-force=bogus` fails with exactly the two
distinct violation lines for type and time-in-force. -/
theorem C2_validatorReportsAll :
    (∀ (p : Parsed) (sch : Schema) (nr : String × Rule) (v : String),
      nr ∈ sch → ruleViolation p nr = some v →
      ∃ m, assertSchema p sch = .error m ∧ strHasSub m v = true)
    ∧ assertSchema (parseArgs ["1", "AAPL", "--type=bogus", "--time-in-force=bogus"] orderOptions)
        orderSchema =
      .error ("\"type\" must be one of [market, limit, stop, stop_limit]"
        ++ "\n" ++ "\"time-in-force\" must be one of [day, gtc, opg, ioc]")
    ∧ ("\"type\" must be one of [market, limit, stop, stop_limit]"
        ≠ "\"time-in-force\" must be one of [day, gtc, opg, ioc]") := by
  refine ⟨?_, by decide, by decide⟩
  intro p sch nr v hmem hv
  have hvmem : v ∈ violations p sch :=
    List.mem_append_left _ (List.mem_filterMap.mpr ⟨nr, hmem, hv⟩)
  refine ⟨joinWith "\n" (violations p sch), ?_, strHasSub_joinWith _ _ _ hvmem⟩
  cases hvs : violations p sch with
  | nil =>
    rw [hvs] at hvmem
    cases hvmem
  | cons x xs =>
    simp [assertSchema, hvs]

set_option maxRecDepth 16384 in
/-- Witness for C2: the general all-violations property applied to the
time-in-force rule of the concrete bogus order invocation. -/
theorem C2_validatorReportsAll_witness :
    ∃ m, assertSchema (parseArgs ["1", "AAPL", "--type=bogus", "--time-in-force=bogus"] orderOptions)
        orderSchema = .error m
      ∧ strHasSub m "\"time-in-force\" must be one of [day, gtc, opg, ioc]" = true :=
  C2_validatorReportsAll.1 _ orderSchema
    ("time-in-force", Rule.onlyOf ["day", "gtc", "opg", "ioc"] true) _
    (by decide) (by decide)

set_option maxRecDepth 16384 in
/-- C3: every declared default reaches the parsed invocation when its
flag is absent (for any command's declarations with distinct flag names
and a flag-free argument vector), and concretely `buy AAPL` parses with
type = market, time-in-force = gtc, passes validation unchanged, and
resolves to qty = 1, symbol = "AAPL". -/
theorem C3_defaultsApplied :
    (∀ (decls : List OptionDecl) (argv : List String) (d : OptionDecl) (v : JVal),
      (decls.map OptionDecl.name).Nodup →
      (∀ t ∈ argv, t.data.head? ≠ some '-') →
      d ∈ decls → d.dflt = some v →
      (parseArgs argv decls).get d.name = some v)
    ∧ ((orderOptions.map OptionDecl.name).Nodup
        ∧ (configureOptions.map OptionDecl.name).Nodup)
    ∧ ((parseArgs ["AAPL"] orderOptions).get "type" = some (JVal.str "market")
        ∧ (parseArgs ["AAPL"] orderOptions).get "time-in-force" = some (JVal.str "gtc")
        ∧ assertSchema (parseArgs ["AAPL"] orderOptions) orderSchema
            = .ok (parseArgs ["AAPL"] orderOptions)
        ∧ resolvePositional BUY_USAGE (parseArgs ["AAPL"] orderOptions).positional
            = .ok (JVal.num 1, JVal.str "AAPL")) := by
  refine ⟨?_, by decide, by decide, by decide, by decide, by decide⟩
  intro decls argv d v hnd hnf hmem hdf
  show lookupOpt (parseArgs argv decls).opts d.name = some v
  have hloop := parseLoop_noflags decls argv hnf
  simp only [parseArgs, hloop]
  exact applyDefaults_hit decls d v hnd hmem hdf [] rfl

set_option maxRecDepth 16384 in
/-- Witness for C3: the general default-application property applied to
the type flag of the order options on the argument vector of
`buy AAPL`. -/
theorem C3_defaultsApplied_witness :
    (parseArgs ["AAPL"] orderOptions).get "type" = some (JVal.str "market") :=
  C3_defaultsApplied.1 orderOptions ["AAPL"] ⟨"type", OptType.str, some (JVal.str "market")⟩
    (JVal.str "market") (by decide) (by decide) (by decide) rfl

/-- C4: whenever the selected command has a validation schema and it
rejects the parsed invocation, the run performs no external effect and
its error outcome is exactly the aggregated validation message; report
and help carry no schema, and a command without a schema skips
validation, passing the record through unchanged. -/
theorem C4_validationAbortsDispatch :
    (∀ (argv : List String) (cfg : Config) (b : Broker) (spec : CommandSpec)
        (sch : Schema) (m : String),
      cliLookup argv.head? = .spec spec →
      spec.schema = some sch →
      assertSchema (parseArgs argv.tail spec.options) sch = .error m →
      runMain argv cfg b = ⟨[], some m⟩)
    ∧ cliLookup (some "report") = .spec reportSpec ∧ reportSpec.schema = none
    ∧ cliLookup (some "help") = .spec helpSpec ∧ helpSpec.schema = none
    ∧ (∀ (spec : CommandSpec) (p : Parsed), spec.schema = none →
        dispatchValidate spec p = .ok p) := by
  refine ⟨?_, rfl, rfl, rfl, rfl, ?_⟩
  · intro argv cfg b spec sch m h0 h1 h2
    simp [runMain, dispatchValidate, h0, h1, h2]
  · intro spec p h
    simp [dispatchValidate, h]

set_option maxRecDepth 16384 in
/-- Witness for C4: a buy invocation with a bogus order type aborts with
the validation message and no effects, even with no credentials
configured. -/
theorem C4_validationAbortsDispatch_witness :
    runMain ["buy", "AAPL", "--type=bogus"] ⟨none, none, none, none⟩ ⟨"oid", 1, []⟩
      = ⟨[], some "\"type\" must be one of [market, limit, stop, stop_limit]"⟩ :=
  C4_validationAbortsDispatch.1 _ _ _ buySpec orderSchema _ rfl rfl (by decide)

/-- C5 counterexample: `alpaca toString` does not route to help —
`cli["toString"]` resolves through the object literal's prototype chain
to the truthy inherited `Object.prototype.toString`, so the dispatcher
selects that value and the run fails with a TypeError instead. -/
theorem C5_counterexample :
    cliLookup (some "toString") ≠ .spec helpSpec
    ∧ cliLookup (some "toString") = .inherited "toString"
    ∧ runMain ["toString"] ⟨none, none, none, none⟩ ⟨"oid", 1, []⟩
        = ⟨[], some "action.fn is not a function"⟩ := by
  refine ⟨by decide, by decide, by decide⟩

/-- C5 amended: a first argument that is neither one of the five command
names nor a property name inherited from `Object.prototype` selects the
help command's spec; a first argument naming an inherited
`Object.prototype` property selects the truthy inherited value instead,
and such a run fails with the TypeError message
"action.fn is not a function" rather than routing to help. -/
theorem C5_unknownCommandFallsBackToHelp :
    (∀ s : String, s ≠ "configure" → s ≠ "buy" → s ≠ "sell" → s ≠ "report" → s ≠ "help" →
      s ∉ OBJECT_PROTOTYPE_KEYS → cliLookup (some s) = .spec helpSpec)
    ∧ (∀ s : String, s ∈ OBJECT_PROTOTYPE_KEYS → cliLookup (some s) = .inherited s)
    ∧ (∀ (argv : List String) (cfg : Config) (b : Broker) (s : String),
        cliLookup argv.head? = .inherited s →
        runMain argv cfg b = ⟨[], some "action.fn is not a function"⟩) := by
  refine ⟨?_, ?_, ?_⟩
  · intro s h1 h2 h3 h4 h5 h6
    simp [cliLookup, h1, h2, h3, h4, h5, h6]
  · intro s h
    simp only [OBJECT_PROTOTYPE_KEYS, List.mem_cons, List.not_mem_nil, or_false] at h
    rcases h with rfl | rfl | rfl | rfl | rfl | rfl | rfl | rfl | rfl | rfl | rfl | rfl <;> rfl
  · intro argv cfg b s h
    simp [runMain, h]

/-- Witness for C5: an ordinary unrecognized name routes to help, and the
inherited name `toString` produces the TypeError outcome. -/
theorem C5_unknownCommandFallsBackToHelp_witness :
    cliLookup (some "frobnicate") = .spec helpSpec
    ∧ runMain ["valueOf"] ⟨none, none, none, none⟩ ⟨"oid", 1, []⟩
        = ⟨[], some "action.fn is not a function"⟩ :=
  ⟨C5_unknownCommandFallsBackToHelp.1 "frobnicate" (by decide) (by decide) (by decide)
      (by decide) (by decide) (by decide),
   C5_unknownCommandFallsBackToHelp.2.2 ["valueOf"] ⟨none, none, none, none⟩ ⟨"oid", 1, []⟩
      "valueOf" (by decide)⟩

set_option maxRecDepth 16384 in
/-- C6 counterexample: `alpaca help toString` does not raise the
unknown-command error — `HELP_DETAILS["toString"]` resolves through the
prototype chain to the truthy inherited `Object.prototype.toString`, so
the handler prints that inherited value. -/
theorem C6_counterexample :
    helpHandler ⟨[JVal.str "toString"], []⟩ = .ok [.printObj "toString"]
    ∧ helpHandler ⟨[JVal.str "toString"], []⟩
        ≠ .error ("'" ++ "toString" ++ "' is not an alpaca command. See 'alpaca help'") := by
  refine ⟨by decide, by decide⟩

set_option maxRecDepth 16384 in
/-- C6 amended: the help handler prints the full command list with no
positional argument; prints the recorded per-topic text for each
recognized topic (for buy, exactly the buy usage plus description);
raises the unknown-command error naming any unrecognized topic that is
not an `Object.prototype` property name; and for a topic naming an
inherited `Object.prototype` property it prints that inherited value
instead of erroring. -/
theorem C6_helpBehaviour :
    (∀ opts : List (String × JVal), helpHandler ⟨[], opts⟩ = .ok [.printOut HELP])
    ∧ (∀ (opts : List (String × JVal)) (c d : String), (c, d) ∈ HELP_DETAILS →
        helpHandler ⟨[JVal.str c], opts⟩ = .ok [.printOut d])
    ∧ (∀ opts : List (String × JVal),
        helpHandler ⟨[JVal.str "buy"], opts⟩
          = .ok [.printOut (BUY_USAGE ++ "\n\nBuys a stock")])
    ∧ (∀ (opts : List (String × JVal)) (s : String), s ≠ "" →
        lookupStr HELP_DETAILS s = none → s ∉ OBJECT_PROTOTYPE_KEYS →
        helpHandler ⟨[JVal.str s], opts⟩
          = .error ("'" ++ s ++ "' is not an alpaca command. See 'alpaca help'"))
    ∧ (∀ (opts : List (String × JVal)) (s : String), s ∈ OBJECT_PROTOTYPE_KEYS →
        helpHandler ⟨[JVal.str s], opts⟩ = .ok [.printObj s]) := by
  refine ⟨fun opts => rfl, ?_, fun opts => rfl, ?_, ?_⟩
  · intro opts c d hmem
    simp only [HELP_DETAILS, List.mem_cons, List.not_mem_nil, or_false, Prod.mk.injEq] at hmem
    rcases hmem with ⟨rfl, rfl⟩ | ⟨rfl, rfl⟩ | ⟨rfl, rfl⟩ | ⟨rfl, rfl⟩ | ⟨rfl, rfl⟩ <;> rfl
  · intro opts s h1 h2 h3
    simp [helpHandler, JVal.truthy, JVal.display, h1, h2, h3]
  · intro opts s h
    simp only [OBJECT_PROTOTYPE_KEYS, List.mem_cons, List.not_mem_nil, or_false] at h
    rcases h with rfl | rfl | rfl | rfl | rfl | rfl | rfl | rfl | rfl | rfl | rfl | rfl <;> rfl

set_option maxRecDepth 16384 in
/-- Witness for C6: help for an unknown non-inherited topic fails naming
the topic, help buy prints the buy usage plus description, and the
inherited topic valueOf prints the inherited value. -/
theorem C6_helpBehaviour_witness :
    helpHandler ⟨[JVal.str "unknown-command"], []⟩
      = .error ("'" ++ "unknown-command" ++ "' is not an alpaca command. See 'alpaca help'")
    ∧ helpHandler ⟨[JVal.str "buy"], []⟩ = .ok [.printOut (BUY_USAGE ++ "\n\nBuys a stock")]
    ∧ helpHandler ⟨[JVal.str "valueOf"], []⟩ = .ok [.printObj "valueOf"] :=
  ⟨C6_helpBehaviour.2.2.2.1 [] "unknown-command" (by decide) (by decide) (by decide),
   C6_helpBehaviour.2.1 [] "buy" (BUY_USAGE ++ "\n\nBuys a stock") (by decide),
   C6_helpBehaviour.2.2.2.2 [] "valueOf" (by decide)⟩

set_option maxRecDepth 16384 in
/-- C7: with keyId or secretKey falsy in the configuration store, buy,
sell and report all fail with the configure-instructing message from
`getAlpaca` before performing any brokerage call or other external
effect. -/
theorem C7_missingCredentials :
    ∀ (cfg : Config) (b : Broker) (p : Parsed), credsMissing cfg = true →
      orderHandler "buy" BUY_USAGE p cfg b = .error NO_CONFIG_MSG
      ∧ orderHandler "sell" SELL_USAGE p cfg b = .error NO_CONFIG_MSG
      ∧ reportHandler cfg b = .error NO_CONFIG_MSG
      ∧ runMain ["buy", "AAPL"] cfg b = ⟨[], some NO_CONFIG_MSG⟩
      ∧ runMain ["sell", "AAPL"] cfg b = ⟨[], some NO_CONFIG_MSG⟩
      ∧ runMain ["report"] cfg b = ⟨[], some NO_CONFIG_MSG⟩ := by
  intro cfg b p h
  have hga : getAlpaca cfg = .error NO_CONFIG_MSG := by simp [getAlpaca, h]
  have hbuy : ∀ q : Parsed, orderHandler "buy" BUY_USAGE q cfg b = .error NO_CONFIG_MSG :=
    fun q => by simp [orderHandler, hga]
  have hsell : ∀ q : Parsed, orderHandler "sell" SELL_USAGE q cfg b = .error NO_CONFIG_MSG :=
    fun q => by simp [orderHandler, hga]
  have hrep : reportHandler cfg b = .error NO_CONFIG_MSG := by simp [reportHandler, hga]
  refine ⟨hbuy p, hsell p, hrep, ?_, ?_, ?_⟩
  · have hval : dispatchValidate buySpec (parseArgs ["AAPL"] buySpec.options)
        = .ok (parseArgs ["AAPL"] buySpec.options) := by decide
    simp only [runMain, List.head?_cons, List.tail_cons,
      show cliLookup (some "buy") = LookupResult.spec buySpec from rfl, hval]
    simp only [show buySpec.handler = Handler.buyH from rfl, runHandler, hbuy]
  · have hval : dispatchValidate sellSpec (parseArgs ["AAPL"] sellSpec.options)
        = .ok (parseArgs ["AAPL"] sellSpec.options) := by decide
    simp only [runMain, List.head?_cons, List.tail_cons,
      show cliLookup (some "sell") = LookupResult.spec sellSpec from rfl, hval]
    simp only [show sellSpec.handler = Handler.sellH from rfl, runHandler, hsell]
  · have hval : dispatchValidate reportSpec (parseArgs [] reportSpec.options)
        = .ok (parseArgs [] reportSpec.options) := by decide
    simp only [runMain, List.head?_cons, List.tail_cons,
      show cliLookup (some "report") = LookupResult.spec reportSpec from rfl, hval]
    simp only [show reportSpec.handler = Handler.reportH from rfl, runHandler, hrep]

/-- Witness for C7: report with an empty configuration store fails with
the configure-instructing message. -/
theorem C7_missingCredentials_witness :
    reportHandler ⟨none, none, none, none⟩ ⟨"oid", 1, []⟩ = .error NO_CONFIG_MSG :=
  (C7_missingCredentials ⟨none, none, none, none⟩ ⟨"oid", 1, []⟩ ⟨[], []⟩ (by decide)).2.2.1

theorem qAdd_eq_add (a b : ℚ) : qAdd a b = a + b := by
  have ha : (a.den : ℤ) ≠ 0 := Int.natCast_ne_zero.mpr a.den_nz
  have hb : (b.den : ℤ) ≠ 0 := Int.natCast_ne_zero.mpr b.den_nz
  rw [qAdd, Rat.mkRat_eq_divInt]
  conv_rhs => rw [← Rat.num_divInt_den a, ← Rat.num_divInt_den b,
    Rat.divInt_add_divInt _ _ ha hb]
  push_cast
  rfl

theorem jsAdd_zero_left (x : Option ℚ) : jsAdd (some 0) x = x := by
  cases x with
  | none => rfl
  | some b => simp [jsAdd, qAdd_eq_add]

theorem jsAdd_zero_right (x : Option ℚ) : jsAdd x (some 0) = x := by
  cases x with
  | none => rfl
  | some a => simp [jsAdd, qAdd_eq_add]

theorem jsAdd_assoc (x y z : Option ℚ) : jsAdd (jsAdd x y) z = jsAdd x (jsAdd y z) := by
  cases x <;> cases y <;> cases z <;> simp [jsAdd, qAdd_eq_add, add_assoc]

theorem performance_foldl_shift (l : List Position) (x : Option ℚ) :
    l.foldl (fun t pos => jsAdd t (parseFloatQ pos.unrealized_pl)) x
      = jsAdd x (performanceOf l) := by
  induction l generalizing x with
  | nil => simp [performanceOf, jsAdd_zero_right]
  | cons p l ih =>
    simp only [performanceOf, List.foldl_cons] at ih ⊢
    rw [ih, ih (jsAdd (some 0) (parseFloatQ p.unrealized_pl)),
      jsAdd_zero_left, jsAdd_assoc]

set_option maxRecDepth 16384 in
/-- C8: the aggregate unrealized profit/loss is the sum of the parsed
`unrealized_pl` of all positions (it splits additively over
concatenation of position lists), and for the single AAPL position of
the spec's example the report prints the AAPL table row and the signed
total line `+$100.00`. -/
theorem C8_reportAggregate :
    (∀ ps qs : List Position,
      performanceOf (ps ++ qs) = jsAdd (performanceOf ps) (performanceOf qs))
    ∧ (∀ (cfg : Config) (b : Broker), credsMissing cfg = false →
        b.positions = [⟨"AAPL", "10", "1000", "1100", "100"⟩] →
        reportHandler cfg b = .ok [.getPositions, .printOut
          ("\nPortfolio:\n  symbol     qty      cost     value      profit\n"
            ++ "    AAPL      10 $1,000.00 $1,100.00     $100.00"
            ++ "\n\nPerformance:\n  +$100.00\n  ")]) := by
  constructor
  · intro ps qs
    rw [performanceOf, List.foldl_append]
    exact performance_foldl_shift qs (performanceOf ps)
  · intro cfg b h1 h2
    simp only [reportHandler, getAlpaca, h1, Bool.false_eq_true, if_false, h2]
    decide

set_option maxRecDepth 16384 in
/-- Witness for C8: the report output of the spec's single-position
portfolio, with credentials configured. -/
theorem C8_reportAggregate_witness :
    reportHandler ⟨some (JVal.str "k"), some (JVal.str "s"), none, none⟩
        ⟨"oid", 1, [⟨"AAPL", "10", "1000", "1100", "100"⟩]⟩
      = .ok [.getPositions, .printOut
          ("\nPortfolio:\n  symbol     qty      cost     value      profit\n"
            ++ "    AAPL      10 $1,000.00 $1,100.00     $100.00"
            ++ "\n\nPerformance:\n  +$100.00\n  ")] :=
  C8_reportAggregate.2 ⟨some (JVal.str "k"), some (JVal.str "s"), none, none⟩
    ⟨"oid", 1, [⟨"AAPL", "10", "1000", "1100", "100"⟩]⟩ (by decide) rfl

/-- C9: running the configure handler twice with the same parsed options
leaves the configuration store exactly as one run does. -/
theorem C9_configureIdempotent (p : Parsed) (c : Config) :
    configureApply p (configureApply p c) = configureApply p c := by
  unfold configureApply configureSets
  split_ifs <;> rfl

/-- C10: each of the four configuration keys is left unchanged whenever
its flag is absent or falsy in the parsed options, and with all four
flags absent or falsy the store is unchanged entirely. -/
theorem C10_configureFrame :
    (∀ (p : Parsed) (c : Config), jsFalsyO (p.get "id") = true →
      (configureApply p c).keyId = c.keyId)
    ∧ (∀ (p : Parsed) (c : Config), jsFalsyO (p.get "secret") = true →
      (configureApply p c).secretKey = c.secretKey)
    ∧ (∀ (p : Parsed) (c : Config), jsFalsyO (p.get "mode") = true →
      (configureApply p c).mode = c.mode)
    ∧ (∀ (p : Parsed) (c : Config), jsFalsyO (p.get "base-url") = true →
      (configureApply p c).baseUrl = c.baseUrl)
    ∧ (∀ (p : Parsed) (c : Config), jsFalsyO (p.get "id") = true →
      jsFalsyO (p.get "secret") = true → jsFalsyO (p.get "mode") = true →
      jsFalsyO (p.get "base-url") = true → configureApply p c = c) := by
  refine ⟨?_, ?_, ?_, ?_, ?_⟩
  · intro p c h
    unfold configureApply configureSets
    rw [h]
    simp only [Bool.true_eq_false, if_false, List.nil_append]
    split_ifs <;> rfl
  · intro p c h
    unfold configureApply configureSets
    rw [h]
    simp only [Bool.true_eq_false, if_false, List.nil_append]
    split_ifs <;> rfl
  · intro p c h
    unfold configureApply configureSets
    rw [h]
    simp only [Bool.true_eq_false, if_false, List.nil_append]
    split_ifs <;> rfl
  · intro p c h
    unfold configureApply configureSets
    rw [h]
    simp only [Bool.true_eq_false, if_false, List.nil_append]
    split_ifs <;> rfl
  · intro p c h1 h2 h3 h4
    unfold configureApply configureSets
    rw [h1, h2, h3, h4]
    rfl

/-- Witness for C10: configure invoked with no flags at all leaves a
populated store unchanged. -/
theorem C10_configureFrame_witness :
    configureApply (parseArgs [] configureOptions)
        ⟨some (JVal.str "a"), none, some (JVal.str "paper"), none⟩
      = ⟨some (JVal.str "a"), none, some (JVal.str "paper"), none⟩ :=
  C10_configureFrame.2.2.2.2 (parseArgs [] configureOptions)
    ⟨some (JVal.str "a"), none, some (JVal.str "paper"), none⟩
    (by decide) (by decide) (by decide) (by decide)

end AlpacaCli
